import Mathlib

/-!
Shallow embedding of the LangGraph service adapter's streaming event
normalizer (CopilotKit runtime, `service-adapters/langgraph/types.ts`,
`utils` and `langgraph-adapter.ts`), together with proofs of the frozen
claims about it.

JavaScript conventions modelled explicitly:
- `undefined` / `null` / absent optional fields are `Option.none`;
- JS truthiness on optional strings: `some s` is truthy iff `s` is nonempty;
- `randomUUID()` is modelled as a supply of fresh identifiers threaded
  through the state as a counter (each call consumes one fresh id, and
  distinct calls yield distinct ids, mirroring UUID freshness);
- a JS `Map` is modelled as an association list with unique keys.
-/

/-- JS truthiness of an optional string: truthy iff present and nonempty. -/
def strTruthy : Option String → Bool
  | some s => s != ""
  | none => false

/-- One content block of a polymorphic LangChain message-content list.
A block is either a bare string or an object; for an object we record the
optional `type` field and the optional string `text` field, which are the
only fields `resolveMessageContent` inspects. -/
inductive ContentBlock
  | strBlock (s : String)
  | objBlock (btype : Option String) (btext : Option String)
deriving DecidableEq

/-- The predicate of the `content.find(...)` call in `resolveMessageContent`:
the element is an object, has a `type` field equal to `"text"`, and has a
`text` field. -/
def blockIsText : ContentBlock → Bool
  | ContentBlock.objBlock btype btext => btype == some "text" && btext.isSome
  | ContentBlock.strBlock _ => false

/-- The `text` field of a block, when it is an object carrying one. -/
def blockText : ContentBlock → Option String
  | ContentBlock.objBlock _ btext => btext
  | ContentBlock.strBlock _ => none

/-- LangChain `MessageContent` as consumed by `resolveMessageContent`:
absent (`undefined`), `null`, a plain string, a list of typed blocks, or
some other (non-array, non-string) shape. -/
inductive MessageContent
  | undef
  | nullC
  | strC (s : String)
  | listC (blocks : List ContentBlock)
  | otherC
deriving DecidableEq

/-- JS falsiness of a content payload, as tested by `if (!content)`:
`undefined` and `null` are falsy, the empty string is falsy, and every
array (even the empty one) and every object is truthy. -/
def contentFalsy : MessageContent → Bool
  | MessageContent.undef => true
  | MessageContent.nullC => true
  | MessageContent.strC s => s == ""
  | MessageContent.listC _ => false
  | MessageContent.otherC => false

/-- Embedding of `resolveMessageContent` from
`service-adapters/langgraph/utils` (types.ts bundle, lines 359-379):
falsy content gives `null`; a string is returned as-is; a nonempty array is
scanned with `find` for the first text block and its `text` field is
returned (`?? null`); anything else gives `null`. -/
def resolveMessageContent (content : MessageContent) : Option String :=
  if contentFalsy content then none
  else
    match content with
    | MessageContent.strC s => some s
    | MessageContent.listC blocks =>
      if blocks.length != 0 then
        match blocks.find? blockIsText with
        | some b => blockText b
        | none => none
      else none
    | _ => none

/-- A JSON value, as passed for tool-call `args` and serialized with
`JSON.stringify`. -/
inductive JsonValue
  | jstr (s : String)
  | jnum (n : Int)
  | jbool (b : Bool)
  | jobj (fields : List (String × JsonValue))

/-- Escaping of one character inside a JSON string literal, as
`JSON.stringify` performs it for the characters that can occur here. -/
def jsonEscapeChar (c : Char) : String :=
  if c = '"' then "\\\""
  else if c = '\\' then "\\\\"
  else if c = '\n' then "\\n"
  else if c = '\r' then "\\r"
  else if c = '\t' then "\\t"
  else String.singleton c

/-- Escaping of a JSON string body. -/
def jsonEscape (s : String) : String :=
  String.join (s.toList.map jsonEscapeChar)

mutual

/-- Model of `JSON.stringify` on the values above (object fields in
insertion order, no added whitespace). -/
def jsonStringify : JsonValue → String
  | JsonValue.jstr s => "\"" ++ jsonEscape s ++ "\""
  | JsonValue.jnum n => toString n
  | JsonValue.jbool b => if b then "true" else "false"
  | JsonValue.jobj fields => "\x7b" ++ jsonStringifyFields fields ++ "\x7d"

/-- Comma-separated serialization of the fields of a JSON object. -/
def jsonStringifyFields : List (String × JsonValue) → String
  | [] => ""
  | [(k, v)] => "\"" ++ jsonEscape k ++ "\":" ++ jsonStringify v
  | (k, v) :: rest =>
    "\"" ++ jsonEscape k ++ "\":" ++ jsonStringify v ++ "," ++ jsonStringifyFields rest

end

/-- One tool call of an `AIMessageChunk` (`chunk.tool_calls` element): an
optional `id`, a `name` (possibly the empty string), and an optional
`args` object. -/
structure ToolCall where
  id : Option String
  name : String
  args : Option JsonValue

/-- The part of a LangChain `AIMessageChunk` read by the handlers: `id`,
`content`, `tool_calls`, and `response_metadata.finish_reason`. -/
structure AIMessageChunk where
  id : Option String
  content : MessageContent
  tool_calls : List ToolCall
  finish_reason : Option String

/-- Embedding of the `MessageInProgress` interface (types.ts lines 86-90):
`toolCallId` and `toolCallName` are optional and nullable, both collapsed
to `Option`. -/
structure MessageInProgress where
  id : String
  toolCallId : Option String
  toolCallName : Option String
deriving DecidableEq

/-- Lookup in the association-list model of the `messagesInProgress` map. -/
def assocGet (l : List (String × MessageInProgress)) (k : String) :
    Option MessageInProgress :=
  match l.find? (fun p => p.1 == k) with
  | some p => some p.2
  | none => none

/-- Model of `Map.set` on the association-list: replace the binding of the key
if present, else append it. -/
def assocSet (l : List (String × MessageInProgress)) (k : String)
    (v : MessageInProgress) : List (String × MessageInProgress) :=
  match l with
  | [] => [(k, v)]
  | (k', v') :: rest =>
    if k' == k then (k, v) :: rest else (k', v') :: assocSet rest k v

/-- Model of `Map.delete` on the association-list: remove every binding of the
key (on the unique-key lists the code builds, exactly the one binding). -/
def assocDelete (l : List (String × MessageInProgress)) (k : String) :
    List (String × MessageInProgress) :=
  l.filter (fun p => p.1 != k)

/-- Embedding of the `StreamState` interface (types.ts lines 72-81). -/
structure StreamState where
  runId : String
  messagesInProgress : List (String × MessageInProgress)
  currentNodeName : Option String
  hasError : Bool
deriving DecidableEq

/-- Processing state: the mutable `StreamState` plus the fresh-id counter
that models the `randomUUID()` supply. -/
structure ProcState where
  stream : StreamState
  fresh : Nat
deriving DecidableEq

/-- The identifier produced by the n-th `randomUUID()` call. -/
def uuid (n : Nat) : String := "uuid-" ++ toString n

/-- Drawing one fresh identifier from the supply (one `randomUUID()` call). -/
def freshUUID (st : ProcState) : String × ProcState :=
  (uuid st.fresh, { st with fresh := st.fresh + 1 })

/-- The JS idiom `s || randomUUID()` on an optional string: keep the string
when it is truthy (present and nonempty), otherwise draw a fresh id. -/
def orFresh (o : Option String) (st : ProcState) : String × ProcState :=
  match o with
  | some s => if s != "" then (s, st) else freshUUID st
  | none => freshUUID st

/-- Embedding of `getMessageInProgress` (types.ts bundle lines 384-389):
`state.messagesInProgress.get(runId) || null`. -/
def getMessageInProgress (runId : String) (state : StreamState) :
    Option MessageInProgress :=
  assocGet state.messagesInProgress runId

/-- Embedding of `setMessageInProgress` (types.ts bundle lines 394-400). -/
def setMessageInProgress (runId : String) (message : MessageInProgress)
    (state : StreamState) : StreamState :=
  { state with messagesInProgress := assocSet state.messagesInProgress runId message }

/-- The `id` field of an optional `MessageInProgress` (`currentStream?.id`). -/
def idOf (cs : Option MessageInProgress) : Option String :=
  cs.map (fun m => m.id)

/-- The `toolCallId` field of an optional `MessageInProgress`
(`currentStream?.toolCallId`). -/
def toolCallIdOf (cs : Option MessageInProgress) : Option String :=
  cs.bind (fun m => m.toolCallId)

/-- The normalized runtime events written to the sink
(`RuntimeEventSubject`), plus `RunError`. -/
inductive RuntimeEvent
  | textMessageStart (messageId : String)
  | textMessageContent (messageId : String) (content : String)
  | textMessageEnd (messageId : String)
  | actionExecutionStart (actionExecutionId : String) (actionName : String)
      (parentMessageId : Option String)
  | actionExecutionArgs (actionExecutionId : String) (args : String)
  | actionExecutionEnd (actionExecutionId : String)
  | runError (message : String) (code : String)
deriving DecidableEq

/-- The part of a LangGraph `StreamEvent` read by the dispatcher and the
handlers: the discriminant, the optional run id, the two suppression flags
and the node name from `metadata`, and the optional `data.chunk`. -/
structure StreamEvent where
  event : String
  run_id : Option String
  metadata_emit_messages : Option Bool
  metadata_emit_tool_calls : Option Bool
  metadata_langgraph_node : Option String
  data_chunk : Option AIMessageChunk


/-- The tool-call part of `handleChatModelStream` (types.ts bundle lines
258-287): the body of `if (toolCall && shouldEmitToolCalls)`. Returns
`some` when one of its two early-return branches fires, `none` when
control falls through to the message part. -/
def tcBranchGo (toolCall : ToolCall) (chunk : AIMessageChunk)
    (currentStream : Option MessageInProgress) (hasCurrentStream : Bool)
    (runId : String) (st : ProcState) :
    Option (ProcState × List RuntimeEvent) :=
  if !hasCurrentStream && toolCall.name != "" then
    let p1 := orFresh toolCall.id st
    let p2 := orFresh chunk.id p1.2
    let p3 := orFresh toolCall.id p2.2
    let tcUnit : MessageInProgress :=
      { id := p2.1, toolCallId := some p3.1, toolCallName := some toolCall.name }
    let st4 := { p3.2 with stream := setMessageInProgress runId tcUnit p3.2.stream }
    some (st4, [RuntimeEvent.actionExecutionStart p1.1 toolCall.name chunk.id])
  else if hasCurrentStream && strTruthy (toolCallIdOf currentStream)
      && (toolCall.args).isSome then
    some (st, [RuntimeEvent.actionExecutionArgs
      ((toolCallIdOf currentStream).getD "")
      (jsonStringify ((toolCall.args).getD (JsonValue.jobj [])))])
  else none

/-- The message part of `handleChatModelStream` (types.ts bundle lines
289-316). The source assigns `currentStream` anew after opening a text
unit and then emits content under `if (currentStream?.id)`; here that
reassignment is unfolded into the two arms of the opening conditional. -/
def messageBranch (chunk : AIMessageChunk)
    (currentStream : Option MessageInProgress) (hasCurrentStream : Bool)
    (shouldEmitMessages : Bool) (runId : String) (st : ProcState) :
    ProcState × List RuntimeEvent :=
  let messageContent := resolveMessageContent chunk.content
  if strTruthy messageContent && shouldEmitMessages then
    if !hasCurrentStream || strTruthy (toolCallIdOf currentStream) then
      let p := orFresh chunk.id st
      let stream2 := setMessageInProgress runId
        { id := p.1, toolCallId := none, toolCallName := none } p.2.stream
      let st2 := { p.2 with stream := stream2 }
      let currentStream2 := getMessageInProgress runId stream2
      if strTruthy (idOf currentStream2) then
        (st2, [RuntimeEvent.textMessageStart p.1,
          RuntimeEvent.textMessageContent ((idOf currentStream2).getD "")
            (messageContent.getD "")])
      else (st2, [RuntimeEvent.textMessageStart p.1])
    else
      if strTruthy (idOf currentStream) then
        (st, [RuntimeEvent.textMessageContent ((idOf currentStream).getD "")
          (messageContent.getD "")])
      else (st, [])
  else (st, [])

/-- Embedding of `handleChatModelStream` (types.ts bundle lines 237-317):
missing chunk returns; a truthy `finish_reason` returns; otherwise the
tool-call block runs first (its early returns modelled by `tcBranchGo`
returning `some`), and control falls through to the message part. -/
def handleChatModelStream (event : StreamEvent) (st : ProcState) :
    ProcState × List RuntimeEvent :=
  match event.data_chunk with
  | none => (st, [])
  | some chunk =>
    let shouldEmitMessages := (event.metadata_emit_messages).getD true
    let shouldEmitToolCalls := (event.metadata_emit_tool_calls).getD true
    if strTruthy chunk.finish_reason then (st, [])
    else
      let currentStream := getMessageInProgress st.stream.runId st.stream
      let hasCurrentStream := strTruthy (idOf currentStream)
      let tcResult :=
        match chunk.tool_calls.head? with
        | some toolCall =>
          if shouldEmitToolCalls then
            tcBranchGo toolCall chunk currentStream hasCurrentStream
              st.stream.runId st
          else none
        | none => none
      match tcResult with
      | some r => r
      | none =>
        messageBranch chunk currentStream hasCurrentStream shouldEmitMessages
          st.stream.runId st

/-- Embedding of `handleChatModelEnd` (types.ts bundle lines 322-339):
emit the end event of the open unit (tool call first, else text message,
else nothing) and always delete the run's entry. -/
def handleChatModelEnd (st : ProcState) : ProcState × List RuntimeEvent :=
  let currentStream := getMessageInProgress st.stream.runId st.stream
  let out :=
    if strTruthy (toolCallIdOf currentStream) then
      [RuntimeEvent.actionExecutionEnd ((toolCallIdOf currentStream).getD "")]
    else if strTruthy (idOf currentStream) then
      [RuntimeEvent.textMessageEnd ((idOf currentStream).getD "")]
    else []
  ({ st with stream := { st.stream with
      messagesInProgress := assocDelete st.stream.messagesInProgress st.stream.runId } },
   out)

/-- The LangGraph reserved start-marker node name (`START`). -/
def START : String := "__start__"

/-- Embedding of `handleChainStart` (types.ts bundle lines 344-354):
record the node name when it is truthy and not the reserved start marker. -/
def handleChainStart (event : StreamEvent) (st : ProcState) : ProcState :=
  match event.metadata_langgraph_node with
  | some node =>
    if node != "" && node != START then
      { st with stream := { st.stream with currentNodeName := some node } }
    else st
  | none => st

/-- Modelled from the spec: `convertServiceAdapterError` lives in
`service-adapters/shared`, which is not part of the sources given; the
spec only says the error is converted to a normalized descriptor whose
message reaches the caller or the `RunError` event, so the conversion is
modelled as carrying the message through. -/
def convertServiceAdapterError (message : String) : String := message

/-- The body of `handleLangGraphEvent`'s `try` block (types.ts bundle
lines 187-219): adopt the event's run id when the state has none, then
switch on the discriminant; unrecognized kinds are dropped. The pure
translations of the handlers never fail, so this always returns `ok`;
the `Except` codomain is the hook where a thrown exception is modelled. -/
def dispatchInner (event : StreamEvent) (st : ProcState) :
    Except String (ProcState × List RuntimeEvent) :=
  let st :=
    if st.stream.runId == "" && strTruthy event.run_id then
      { st with stream := { st.stream with runId := (event.run_id).getD "" } }
    else st
  if event.event == "on_chat_model_stream" then
    Except.ok (handleChatModelStream event st)
  else if event.event == "on_chat_model_end" then
    Except.ok (handleChatModelEnd st)
  else if event.event == "on_custom_event" then
    Except.ok (st, [])
  else if event.event == "on_chain_start" then
    Except.ok (handleChainStart event st, [])
  else
    Except.ok (st, [])

/-- The `try`/`catch` of `handleLangGraphEvent` (types.ts bundle lines
181-232), parametrized by the inner dispatch so that a handler that
throws can be modelled: an exception is caught, converted, and emitted as
a single `RunError` event with code `LANGGRAPH_EVENT_ERROR`; it never
propagates. -/
def handleLangGraphEventWith
    (inner : StreamEvent → ProcState → Except String (ProcState × List RuntimeEvent))
    (event : StreamEvent) (st : ProcState) : ProcState × List RuntimeEvent :=
  match inner event st with
  | Except.ok r => r
  | Except.error err =>
    (st, [RuntimeEvent.runError (convertServiceAdapterError err)
      "LANGGRAPH_EVENT_ERROR"])

/-- Embedding of `handleLangGraphEvent`: the concrete dispatcher. -/
def handleLangGraphEvent (event : StreamEvent) (st : ProcState) :
    ProcState × List RuntimeEvent :=
  handleLangGraphEventWith dispatchInner event st

/-- The Stream Driver's iteration (the `for await` loop of
`processLangGraphStream`), parametrized like `handleLangGraphEventWith`:
dispatch each event in order, concatenating the emitted events. -/
def runEventsWith
    (inner : StreamEvent → ProcState → Except String (ProcState × List RuntimeEvent)) :
    List StreamEvent → ProcState → ProcState × List RuntimeEvent
  | [], st => (st, [])
  | e :: rest, st =>
    let r := handleLangGraphEventWith inner e st
    let rs := runEventsWith inner rest r.1
    (rs.1, r.2 ++ rs.2)

/-- The concrete Stream Driver iteration over the concrete dispatcher. -/
def runEvents (events : List StreamEvent) (st : ProcState) :
    ProcState × List RuntimeEvent :=
  runEventsWith dispatchInner events st

/-- Embedding of `createStreamState` (types.ts bundle lines 169-176): a
fresh state whose `runId` is one `randomUUID()` draw. -/
def createStreamState (fresh : Nat) : StreamState × Nat :=
  ({ runId := uuid fresh, messagesInProgress := [],
     currentNodeName := none, hasError := false }, fresh + 1)

/-- The processing state at the start of one invocation. -/
def initialProcState : ProcState :=
  let p := createStreamState 0
  { stream := p.1, fresh := p.2 }

/-- The source stream of one invocation: it yields its events and then
either ends normally or fails with a stream-level error (an exception
escaping iteration itself). -/
inductive SourceStream
  | ok (events : List StreamEvent)
  | fail (events : List StreamEvent) (err : String)

/-- One operation performed on the sink: a `next` write or the `complete`
signal. -/
inductive SinkOp
  | next (e : RuntimeEvent)
  | complete
deriving DecidableEq

/-- Whether a sink operation is the completion signal. -/
def SinkOp.isComplete : SinkOp → Bool
  | SinkOp.complete => true
  | SinkOp.next _ => false

/-- Embedding of `processLangGraphStream` (langgraph-adapter.ts lines
118-230): iterate the source, dispatching each event (handler errors are
contained inside `handleLangGraphEvent`); the `finally` block completes
the sink on both paths, after all writes; a stream-level failure is
converted and re-raised to the caller (the `Option String` result) after
the sink is completed. -/
def processLangGraphStream (src : SourceStream) (st : ProcState) :
    List SinkOp × Option String :=
  match src with
  | SourceStream.ok events =>
    let r := runEvents events st
    ((r.2).map SinkOp.next ++ [SinkOp.complete], none)
  | SourceStream.fail events err =>
    let r := runEvents events st
    ((r.2).map SinkOp.next ++ [SinkOp.complete],
     some (convertServiceAdapterError err))

/-- Whether a runtime event is one of the three `ActionExecution` events. -/
def isActionEvent : RuntimeEvent → Bool
  | RuntimeEvent.actionExecutionStart _ _ _ => true
  | RuntimeEvent.actionExecutionArgs _ _ => true
  | RuntimeEvent.actionExecutionEnd _ => true
  | _ => false

/-- The state condition under which the handler may open a text unit: the
run has no open unit (no entry, or an entry whose `id` is falsy) or the
open unit is a tool-call unit (truthy `toolCallId`). -/
def noOpenTextUnit (cs : Option MessageInProgress) : Prop :=
  match cs with
  | none => True
  | some m => m.id = "" ∨ strTruthy m.toolCallId = true

/-- Scenario fixture: a token-delta source event whose chunk carries the
given content, no tool calls, no finish marker, no metadata. -/
def tokenDelta (content : MessageContent) : StreamEvent :=
  { event := "on_chat_model_stream", run_id := none,
    metadata_emit_messages := none, metadata_emit_tool_calls := none,
    metadata_langgraph_node := none,
    data_chunk := some
      { id := none, content := content, tool_calls := [],
        finish_reason := none } }

/-- Scenario fixture: a token-delta source event whose chunk carries the
given id and tool calls, empty string content, no finish marker. -/
def tcDelta (chunkId : Option String) (tcs : List ToolCall) : StreamEvent :=
  { event := "on_chat_model_stream", run_id := none,
    metadata_emit_messages := none, metadata_emit_tool_calls := none,
    metadata_langgraph_node := none,
    data_chunk := some
      { id := chunkId, content := MessageContent.strC "", tool_calls := tcs,
        finish_reason := none } }

/-- Scenario fixture: a generation-end source event. -/
def genEndEvent : StreamEvent :=
  { event := "on_chat_model_end", run_id := none,
    metadata_emit_messages := none, metadata_emit_tool_calls := none,
    metadata_langgraph_node := none, data_chunk := none }

/-- Fixture: an inner dispatch that models a handler throwing on every
event. -/
def failingInner (_ : StreamEvent) (_ : ProcState) :
    Except String (ProcState × List RuntimeEvent) :=
  Except.error "boom"

/-- Fixture: a processing state whose run has an open tool-call unit. -/
def tcOpenState : ProcState :=
  { stream :=
      { runId := "run-1",
        messagesInProgress :=
          [("run-1", { id := "m1", toolCallId := some "call_9",
                       toolCallName := some "search" })],
        currentNodeName := none, hasError := false },
    fresh := 0 }

/-- Helper: looking up the key just set yields the value just set. -/
theorem assocGet_set_self (l : List (String × MessageInProgress)) (k : String)
    (v : MessageInProgress) : assocGet (assocSet l k v) k = some v := by
  induction l with
  | nil => simp [assocSet, assocGet, List.find?]
  | cons p rest ih =>
    by_cases h : p.1 == k
    · cases p
      simp_all [assocSet, assocGet, List.find?]
    · cases p
      simp_all [assocSet, assocGet, List.find?]

/-- Helper: looking up a key just deleted yields nothing. -/
theorem assocGet_delete_self (l : List (String × MessageInProgress))
    (k : String) : assocGet (assocDelete l k) k = none := by
  have hfind : List.find? (fun p => p.1 == k) (assocDelete l k) = none := by
    rw [List.find?_eq_none]
    intro x hx
    rcases List.mem_filter.mp hx with ⟨hmem, hk⟩
    simp at hk
    simp [hk]
  simp [assocGet, hfind]

/-- Helper: `orFresh` never touches the `StreamState` part of the state. -/
theorem orFresh_stream (o : Option String) (st : ProcState) :
    (orFresh o st).2.stream = st.stream := by
  cases o with
  | none => simp [orFresh, freshUUID]
  | some s =>
    by_cases h : s == ""
    · simp_all [orFresh, freshUUID]
    · simp_all [orFresh, freshUUID]

/-- Helper: a fresh identifier is never the empty string. -/
theorem uuid_ne_empty (n : Nat) : uuid n ≠ "" := by
  intro h
  have hl := congrArg String.length h
  rw [uuid, String.length_append] at hl
  have h5 : ("uuid-" : String).length = 5 := rfl
  have h0 : ("" : String).length = 0 := rfl
  rw [h5, h0] at hl
  omega

/-- Helper: the identifier chosen by `orFresh` is never the empty string. -/
theorem orFresh_fst_ne_empty (o : Option String) (st : ProcState) :
    (orFresh o st).1 ≠ "" := by
  cases o with
  | none => simpa [orFresh, freshUUID] using uuid_ne_empty st.fresh
  | some s =>
    by_cases h : s = ""
    · subst h
      simpa [orFresh, freshUUID] using uuid_ne_empty st.fresh
    · simp [orFresh, h]

/-- Helper: `List.find?` skips a block of elements that all fail the
predicate. -/
theorem find?_append_of_none {α : Type} (p : α → Bool) (pre rest : List α)
    (h : ∀ b ∈ pre, p b = false) :
    List.find? p (pre ++ rest) = List.find? p rest := by
  induction pre with
  | nil => simp
  | cons b bs ih =>
    have hb : p b = false := h b (by simp)
    simp only [List.cons_append, List.find?, hb]
    exact ih (fun b' hb' => h b' (by simp [hb']))

/-- C3 counterexample: the claim says resolving the empty string returns
the empty string, but `resolveMessageContent` guards with falsy `!content`
and the empty string is falsy in JavaScript, so it returns `null`. -/
theorem claim_c3_counterexample :
    ¬ (resolveMessageContent (MessageContent.strC "") = some "") := by decide

/-- C3 (amended): the content resolver returns a nonempty plain string
as-is, and returns `null` for `null`, for `undefined`, and — contrary to
the claim as stated — also for the empty string, because the leading JS
falsiness guard catches the empty string. -/
theorem claim_c3_amended :
    (∀ s : String, s ≠ "" → resolveMessageContent (MessageContent.strC s) = some s) ∧
    resolveMessageContent MessageContent.nullC = none ∧
    resolveMessageContent MessageContent.undef = none ∧
    resolveMessageContent (MessageContent.strC "") = none := by
  refine ⟨?_, by decide, by decide, by decide⟩
  intro s hs
  simp [resolveMessageContent, contentFalsy, hs]

/-- C3 witness: the amended theorem applied to the string `"hi"`. -/
theorem claim_c3_witness :
    resolveMessageContent (MessageContent.strC "hi") = some "hi" :=
  claim_c3_amended.1 "hi" (by decide)

/-- C4: for a list payload the resolver returns the `text` of the first
block satisfying the text-block predicate (first match wins), `null` when
no block satisfies it, `"hi"` on the two-text-block example, and `null`
on any other unrecognized shape; the embedding is a total function, so no
exception is ever raised. -/
theorem claim_c4_resolver_list_scan :
    (∀ (pre post : List ContentBlock) (b : ContentBlock) (t : String),
      (∀ b' ∈ pre, blockIsText b' = false) → blockIsText b = true →
      blockText b = some t →
      resolveMessageContent (MessageContent.listC (pre ++ b :: post)) = some t) ∧
    (∀ blocks : List ContentBlock, (∀ b ∈ blocks, blockIsText b = false) →
      resolveMessageContent (MessageContent.listC blocks) = none) ∧
    resolveMessageContent (MessageContent.listC
      [ContentBlock.objBlock (some "text") (some "hi"),
       ContentBlock.objBlock (some "text") (some "second")]) = some "hi" ∧
    resolveMessageContent MessageContent.otherC = none := by
  refine ⟨?_, ?_, by decide, by decide⟩
  · intro pre post b t hpre hb ht
    have hfind : List.find? blockIsText (pre ++ b :: post) = some b := by
      rw [find?_append_of_none blockIsText pre (b :: post) hpre]
      simp [List.find?, hb]
    have hlen : (pre ++ b :: post).length ≠ 0 := by simp
    simp [resolveMessageContent, contentFalsy, hfind, hlen, ht]
  · intro blocks hblocks
    have hfind : List.find? blockIsText blocks = none := by
      rw [List.find?_eq_none]
      intro x hx
      simp [hblocks x hx]
    by_cases hlen : blocks.length = 0
    · simp [resolveMessageContent, contentFalsy, hlen]
    · simp [resolveMessageContent, contentFalsy, hlen, hfind]

/-- C4 witness: the first-match clause applied to a concrete list with a
leading non-text block. -/
theorem claim_c4_witness :
    resolveMessageContent (MessageContent.listC
      ([ContentBlock.strBlock "x"] ++
        ContentBlock.objBlock (some "text") (some "hi") ::
          [ContentBlock.objBlock (some "text") (some "second")])) = some "hi" :=
  claim_c4_resolver_list_scan.1 [ContentBlock.strBlock "x"]
    [ContentBlock.objBlock (some "text") (some "second")]
    (ContentBlock.objBlock (some "text") (some "hi")) "hi"
    (by decide) (by decide) (by decide)

/-- C1: on a fresh invocation, three token deltas with plain string
content `"a"`, `"b"`, `"c"` followed by a generation-end event emit
exactly `TextMessageStart`, three `TextMessageContent` events, and
`TextMessageEnd`, in order, all carrying the same message id (the one
fresh id drawn when the text unit opened). -/
theorem claim_c1_text_stream_scenario :
    (runEvents [tokenDelta (MessageContent.strC "a"),
      tokenDelta (MessageContent.strC "b"),
      tokenDelta (MessageContent.strC "c"), genEndEvent] initialProcState).2 =
    [RuntimeEvent.textMessageStart (uuid 1),
     RuntimeEvent.textMessageContent (uuid 1) "a",
     RuntimeEvent.textMessageContent (uuid 1) "b",
     RuntimeEvent.textMessageContent (uuid 1) "c",
     RuntimeEvent.textMessageEnd (uuid 1)] := by decide

/-- C2: the supplied-id scenario of the claim holds (all three
`ActionExecution` events share the supplied id `call_1` and the args are
serialized as the expected JSON text), but when the engine supplies no
tool-call id the code draws two distinct fresh ids — one emitted in
`ActionExecutionStart`, a second recorded as the unit's `toolCallId` — so
the generation-end event emits `ActionExecutionEnd` with an id different
from the started one, contradicting the claim that the started event's id
is also the recorded one. -/
theorem claim_c2_divergence :
    (runEvents [tcDelta none [{ id := some "call_1", name := "search", args := none }],
      tcDelta none
        [{ id := none, name := "",
           args := some (JsonValue.jobj [("query", JsonValue.jstr "cats")]) }],
      genEndEvent] initialProcState).2 =
    [RuntimeEvent.actionExecutionStart "call_1" "search" none,
     RuntimeEvent.actionExecutionArgs "call_1" "\x7b\"query\":\"cats\"\x7d",
     RuntimeEvent.actionExecutionEnd "call_1"] ∧
    (runEvents [tcDelta (some "chunk-1")
        [{ id := none, name := "search",
           args := some (JsonValue.jobj [("query", JsonValue.jstr "cats")]) }],
      genEndEvent] initialProcState).2 =
    [RuntimeEvent.actionExecutionStart (uuid 1) "search" (some "chunk-1"),
     RuntimeEvent.actionExecutionEnd (uuid 2)] ∧
    uuid 1 ≠ uuid 2 := by
  refine ⟨by decide, by decide, by decide⟩

/-- C7: if the inner dispatch of an event fails (a handler throws), the
dispatcher emits exactly one `RunError` event carrying the converted
message and the code `LANGGRAPH_EVENT_ERROR`, the exception does not
propagate (the dispatcher returns normally), and the driver processes all
subsequent events from the same state. -/
theorem claim_c7_handler_error_contained :
    ∀ (inner : StreamEvent → ProcState → Except String (ProcState × List RuntimeEvent))
      (e : StreamEvent) (st : ProcState) (err : String) (rest : List StreamEvent),
      inner e st = Except.error err →
      handleLangGraphEventWith inner e st =
        (st, [RuntimeEvent.runError (convertServiceAdapterError err)
          "LANGGRAPH_EVENT_ERROR"]) ∧
      runEventsWith inner (e :: rest) st =
        ((runEventsWith inner rest st).1,
         RuntimeEvent.runError (convertServiceAdapterError err) "LANGGRAPH_EVENT_ERROR"
           :: (runEventsWith inner rest st).2) := by
  intro inner e st err rest h
  constructor
  · simp [handleLangGraphEventWith, h]
  · simp [runEventsWith, handleLangGraphEventWith, h]

/-- C7 witness: the containment theorem applied to an always-throwing
inner dispatch on one concrete event. -/
theorem claim_c7_witness :
    runEventsWith failingInner [genEndEvent] initialProcState =
      ((runEventsWith failingInner [] initialProcState).1,
       RuntimeEvent.runError (convertServiceAdapterError "boom") "LANGGRAPH_EVENT_ERROR"
         :: (runEventsWith failingInner [] initialProcState).2) :=
  (claim_c7_handler_error_contained failingInner genEndEvent initialProcState
    "boom" [] rfl).2

/-- C8: the generation-end handler always removes the run's entry from the
table, and emits `ActionExecutionEnd` with the unit's call id when the
open unit is a tool-call unit, `TextMessageEnd` with the unit's id when it
is a text unit, and nothing when no unit is open. -/
theorem claim_c8_generation_end :
    ∀ st : ProcState,
      getMessageInProgress st.stream.runId (handleChatModelEnd st).1.stream = none ∧
      (handleChatModelEnd st).1.stream.messagesInProgress =
        assocDelete st.stream.messagesInProgress st.stream.runId ∧
      (∀ m t, getMessageInProgress st.stream.runId st.stream = some m →
        m.toolCallId = some t → t ≠ "" →
        (handleChatModelEnd st).2 = [RuntimeEvent.actionExecutionEnd t]) ∧
      (∀ m, getMessageInProgress st.stream.runId st.stream = some m →
        strTruthy m.toolCallId = false → m.id ≠ "" →
        (handleChatModelEnd st).2 = [RuntimeEvent.textMessageEnd m.id]) ∧
      (getMessageInProgress st.stream.runId st.stream = none →
        (handleChatModelEnd st).2 = []) := by
  intro st
  refine ⟨?_, ?_, ?_, ?_, ?_⟩
  · simp [handleChatModelEnd, getMessageInProgress, assocGet_delete_self]
  · simp [handleChatModelEnd]
  · intro m t hm ht htne
    simp [handleChatModelEnd, hm, toolCallIdOf, ht, strTruthy, htne]
  · intro m hm htc hid
    cases h : m.toolCallId with
    | some t =>
      rw [h] at htc
      simp [strTruthy] at htc
      subst htc
      simp [handleChatModelEnd, hm, toolCallIdOf, h, strTruthy, idOf, hid]
    | none =>
      simp [handleChatModelEnd, hm, toolCallIdOf, h, strTruthy, idOf, hid]
  · intro hm
    simp [handleChatModelEnd, hm, toolCallIdOf, idOf, strTruthy]

/-- C8 witness: the tool-call clause applied to the fixture state with an
open tool-call unit. -/
theorem claim_c8_witness :
    (handleChatModelEnd tcOpenState).2 = [RuntimeEvent.actionExecutionEnd "call_9"] :=
  (claim_c8_generation_end tcOpenState).2.2.1
    { id := "m1", toolCallId := some "call_9", toolCallName := some "search" }
    "call_9" rfl rfl (by decide)

/-- Helper: writes mapped onto the sink contain no completion signal. -/
theorem map_next_no_complete (l : List RuntimeEvent) :
    (l.map SinkOp.next).filter SinkOp.isComplete = [] := by
  induction l with
  | nil => rfl
  | cons e rest ih => simp [SinkOp.isComplete, ih]

/-- C9: for every source stream and state, the sink trace produced by the
stream processor contains exactly one completion signal and it is the
last operation, the caller sees no rejection exactly when the source
ended normally, and a source-stream-level failure is re-raised (as the
converted error) after the sink has been completed. -/
theorem claim_c9_completion_exactly_once :
    ∀ (src : SourceStream) (st : ProcState),
      ((processLangGraphStream src st).1.filter SinkOp.isComplete).length = 1 ∧
      (processLangGraphStream src st).1.getLast? = some SinkOp.complete ∧
      ((processLangGraphStream src st).2 = none ↔
        ∃ evs, src = SourceStream.ok evs) ∧
      (∀ evs err, src = SourceStream.fail evs err →
        (processLangGraphStream src st).2 =
          some (convertServiceAdapterError err)) := by
  intro src st
  cases src with
  | ok events =>
    refine ⟨?_, ?_, ?_, ?_⟩
    · simp [processLangGraphStream, List.filter_append, map_next_no_complete,
        SinkOp.isComplete]
    · simp [processLangGraphStream, List.getLast?_concat]
    · simp [processLangGraphStream]
    · intro evs err h
      exact absurd h (by simp)
  | fail events err =>
    refine ⟨?_, ?_, ?_, ?_⟩
    · simp [processLangGraphStream, List.filter_append, map_next_no_complete,
        SinkOp.isComplete]
    · simp [processLangGraphStream, List.getLast?_concat]
    · simp [processLangGraphStream]
    · intro evs err' h
      cases h
      simp [processLangGraphStream]

/-- C9 witness: the re-raise clause applied to a concrete failing source. -/
theorem claim_c9_witness :
    (processLangGraphStream (SourceStream.fail [] "stream broke") initialProcState).2 =
      some (convertServiceAdapterError "stream broke") :=
  (claim_c9_completion_exactly_once (SourceStream.fail [] "stream broke")
    initialProcState).2.2.2 [] "stream broke" rfl

/-- Helper: every event emitted by the tool-call branch is an
`ActionExecution` event. -/
theorem tcBranchGo_all_action (toolCall : ToolCall) (chunk : AIMessageChunk)
    (cs : Option MessageInProgress) (has : Bool) (rid : String) (st : ProcState)
    (r : ProcState × List RuntimeEvent)
    (h : tcBranchGo toolCall chunk cs has rid st = some r) :
    ∀ ev ∈ r.2, isActionEvent ev = true := by
  intro ev hev
  simp only [tcBranchGo] at h
  split at h
  · injection h with h2
    subst h2
    simp at hev
    subst hev
    rfl
  · split at h
    · injection h with h2
      subst h2
      simp at hev
      subst hev
      rfl
    · simp at h

/-- Helper: the guard of the text-unit-opening conditional implies the
no-open-text-unit condition. -/
theorem guard_implies_noOpen (cs : Option MessageInProgress)
    (hg : (!(strTruthy (idOf cs)) || strTruthy (toolCallIdOf cs)) = true) :
    noOpenTextUnit cs := by
  cases cs with
  | none => trivial
  | some m =>
    simp only [noOpenTextUnit]
    by_cases h2 : strTruthy (toolCallIdOf (some m)) = true
    · right
      simpa [toolCallIdOf] using h2
    · have h2f : strTruthy (toolCallIdOf (some m)) = false := by simpa using h2
      rw [h2f, Bool.or_false] at hg
      left
      simp [idOf, strTruthy] at hg
      exact hg

/-- Helper: the message branch emits a `TextMessageStart` only when the
opening guard holds. -/
theorem messageBranch_start_mem (chunk : AIMessageChunk)
    (cs : Option MessageInProgress) (has sem : Bool) (rid : String)
    (st : ProcState) (mid : String)
    (h : RuntimeEvent.textMessageStart mid ∈ (messageBranch chunk cs has sem rid st).2) :
    (!has || strTruthy (toolCallIdOf cs)) = true := by
  by_cases hg : (!has || strTruthy (toolCallIdOf cs)) = true
  · exact hg
  · exfalso
    have hgf : (!has || strTruthy (toolCallIdOf cs)) = false := by
      simpa using hg
    simp only [messageBranch, hgf] at h
    split at h
    · split at h
      · simp_all
      · split at h <;> simp_all
    · simp_all

/-- Helper: the message branch never emits an `ActionExecution` event. -/
theorem messageBranch_no_action (chunk : AIMessageChunk)
    (cs : Option MessageInProgress) (has sem : Bool) (rid : String)
    (st : ProcState) :
    ∀ ev ∈ (messageBranch chunk cs has sem rid st).2, isActionEvent ev = false := by
  intro ev hev
  simp only [messageBranch] at hev
  split at hev
  · split at hev
    · split at hev
      · simp at hev
        rcases hev with rfl | rfl <;> rfl
      · simp at hev
        subst hev
        rfl
    · split at hev
      · simp at hev
        subst hev
        rfl
      · simp at hev
  · simp at hev

/-- Helper: after the message branch, the run's table entry is either
unchanged or a text unit (its `toolCallId` is `null`). -/
theorem messageBranch_state (chunk : AIMessageChunk)
    (cs : Option MessageInProgress) (has sem : Bool) (rid : String)
    (st : ProcState) (m : MessageInProgress)
    (h : getMessageInProgress rid (messageBranch chunk cs has sem rid st).1.stream = some m) :
    getMessageInProgress rid st.stream = some m ∨ m.toolCallId = none := by
  simp only [messageBranch] at h
  split at h
  · split at h
    · have hset : ∀ (u : MessageInProgress) (s : StreamState),
        getMessageInProgress rid (setMessageInProgress rid u s) = some u := by
        intro u s
        simp [getMessageInProgress, setMessageInProgress, assocGet_set_self]
      split at h
      · rw [hset] at h
        injection h with h2
        subst h2
        right
        rfl
      · rw [hset] at h
        injection h with h2
        subst h2
        right
        rfl
    · split at h
      · left
        exact h
      · left
        exact h
  · left
    exact h

/-- Helper: the stream-token handler emits a `TextMessageStart` only when
its opening guard — no current stream, or a truthy `toolCallId` — holds
for the run's entry. -/
theorem handleChatModelStream_start_guard (e : StreamEvent) (st : ProcState)
    (mid : String)
    (h : RuntimeEvent.textMessageStart mid ∈ (handleChatModelStream e st).2) :
    (!(strTruthy (idOf (getMessageInProgress st.stream.runId st.stream)))
      || strTruthy (toolCallIdOf (getMessageInProgress st.stream.runId st.stream))) = true := by
  cases hdc : e.data_chunk with
  | none => simp [handleChatModelStream, hdc] at h
  | some chunk =>
    simp only [handleChatModelStream, hdc] at h
    split at h
    · simp at h
    · split at h
      · rename_i r heq
        rcases hh : chunk.tool_calls.head? with _ | tc
        · rw [hh] at heq
          simp at heq
        · simp only [hh] at heq
          split at heq
          · have ha := tcBranchGo_all_action tc chunk _ _ _ _ r heq
              (RuntimeEvent.textMessageStart mid) h
            simp [isActionEvent] at ha
          · simp at heq
      · exact messageBranch_start_mem _ _ _ _ _ _ _ h

/-- C5: a `TextMessageStart` is emitted by the stream-token handler only
when the run has no open unit (no entry, or an entry with a falsy id) or
its open unit is a tool-call unit; hence no two `TextMessageStart` events
can fire for one run without an intervening end or a kind-changing
tool-call start. -/
theorem claim_c5_no_duplicate_text_start :
    ∀ (e : StreamEvent) (st : ProcState) (mid : String),
      RuntimeEvent.textMessageStart mid ∈ (handleChatModelStream e st).2 →
      noOpenTextUnit (getMessageInProgress st.stream.runId st.stream) := by
  intro e st mid h
  exact guard_implies_noOpen _ (handleChatModelStream_start_guard e st mid h)

/-- C5 witness: the theorem applied to a token delta on the fresh initial
state, whose emitted events contain the `TextMessageStart`. -/
theorem claim_c5_witness :
    noOpenTextUnit (getMessageInProgress initialProcState.stream.runId
      initialProcState.stream) :=
  claim_c5_no_duplicate_text_start (tokenDelta (MessageContent.strC "hello"))
    initialProcState (uuid 1) (by decide)

/-- C6: a token-delta event whose metadata sets `copilotkit:emit-tool-calls`
to `false` makes the stream-token handler emit no `ActionExecution` event
at all and record no tool-call unit (the run's entry is unchanged or a
text unit), even when the chunk carries a tool-call descriptor; and both
suppression flags default to `true` when absent. -/
theorem claim_c6_tool_call_suppression :
    (∀ (e : StreamEvent) (st : ProcState),
      e.metadata_emit_tool_calls = some false →
      (∀ ev ∈ (handleChatModelStream e st).2, isActionEvent ev = false) ∧
      (∀ m : MessageInProgress,
        getMessageInProgress st.stream.runId (handleChatModelStream e st).1.stream =
          some m →
        getMessageInProgress st.stream.runId st.stream = some m ∨
          m.toolCallId = none)) ∧
    (∀ e : StreamEvent, e.metadata_emit_tool_calls = none →
      (e.metadata_emit_tool_calls).getD true = true) ∧
    (∀ e : StreamEvent, e.metadata_emit_messages = none →
      (e.metadata_emit_messages).getD true = true) := by
  refine ⟨?_, ?_, ?_⟩
  · intro e st h
    have hemit : (e.metadata_emit_tool_calls).getD true = false := by
      rw [h]
      rfl
    cases hdc : e.data_chunk with
    | none =>
      constructor
      · intro ev hev
        simp [handleChatModelStream, hdc] at hev
      · intro m hm
        left
        simpa [handleChatModelStream, hdc] using hm
    | some chunk =>
      by_cases hf : strTruthy chunk.finish_reason = true
      · constructor
        · intro ev hev
          simp [handleChatModelStream, hdc, hf] at hev
        · intro m hm
          left
          simpa [handleChatModelStream, hdc, hf] using hm
      · have hfb : strTruthy chunk.finish_reason = false := by
          simpa using hf
        have hstep : handleChatModelStream e st =
            messageBranch chunk (getMessageInProgress st.stream.runId st.stream)
              (strTruthy (idOf (getMessageInProgress st.stream.runId st.stream)))
              ((e.metadata_emit_messages).getD true) st.stream.runId st := by
          cases hh : chunk.tool_calls.head? with
          | none => simp [handleChatModelStream, hdc, hfb, hemit, hh]
          | some tc => simp [handleChatModelStream, hdc, hfb, hemit, hh]
        rw [hstep]
        exact ⟨messageBranch_no_action _ _ _ _ _ _,
          fun m hm => messageBranch_state _ _ _ _ _ _ m hm⟩
  · intro e h
    rw [h]
    rfl
  · intro e h
    rw [h]
    rfl

/-- C6 witness: the suppression clause applied to a token delta carrying a
tool-call descriptor with `emit-tool-calls` set to `false` on the fresh
initial state. -/
theorem claim_c6_witness :
    ∀ ev ∈ (handleChatModelStream
      { event := "on_chat_model_stream", run_id := none,
        metadata_emit_messages := none, metadata_emit_tool_calls := some false,
        metadata_langgraph_node := none,
        data_chunk := some
          { id := none, content := MessageContent.strC "",
            tool_calls := [{ id := some "call_1", name := "search", args := none }],
            finish_reason := none } }
      initialProcState).2, isActionEvent ev = false :=
  ((claim_c6_tool_call_suppression.1
    { event := "on_chat_model_stream", run_id := none,
      metadata_emit_messages := none, metadata_emit_tool_calls := some false,
      metadata_langgraph_node := none,
      data_chunk := some
        { id := none, content := MessageContent.strC "",
          tool_calls := [{ id := some "call_1", name := "search", args := none }],
          finish_reason := none } }
    initialProcState rfl).1)

/-- C10: when the run's open unit is a tool-call unit and a token delta
with resolvable nonempty text arrives (no tool-call descriptor, message
emission enabled), the handler emits `TextMessageStart` followed by
`TextMessageContent` with the new text unit's id, overwrites the table
entry with that text unit, and emits no `ActionExecutionEnd` for the
superseded tool-call unit. -/
theorem claim_c10_implicit_supersede :
    ∀ (e : StreamEvent) (st : ProcState) (chunk : AIMessageChunk)
      (m : MessageInProgress) (t s : String),
      e.data_chunk = some chunk →
      chunk.tool_calls = [] →
      chunk.finish_reason = none →
      (e.metadata_emit_messages).getD true = true →
      getMessageInProgress st.stream.runId st.stream = some m →
      m.id ≠ "" → m.toolCallId = some t → t ≠ "" →
      resolveMessageContent chunk.content = some s → s ≠ "" →
      (handleChatModelStream e st).2 =
        [RuntimeEvent.textMessageStart (orFresh chunk.id st).1,
         RuntimeEvent.textMessageContent (orFresh chunk.id st).1 s] ∧
      getMessageInProgress st.stream.runId (handleChatModelStream e st).1.stream =
        some { id := (orFresh chunk.id st).1, toolCallId := none,
               toolCallName := none } ∧
      (∀ aeid, RuntimeEvent.actionExecutionEnd aeid ∉ (handleChatModelStream e st).2) := by
  intro e st chunk m t s hdc htools hfin hsem hm hid htc hts hs hsne
  have hcs2 : getMessageInProgress st.stream.runId
      (setMessageInProgress st.stream.runId
        { id := (orFresh chunk.id st).1, toolCallId := none, toolCallName := none }
        (orFresh chunk.id st).2.stream) =
      some { id := (orFresh chunk.id st).1, toolCallId := none,
             toolCallName := none } := by
    simp [getMessageInProgress, setMessageInProgress, assocGet_set_self]
  have hstep : handleChatModelStream e st =
      messageBranch chunk (some m) (strTruthy (idOf (some m)))
        ((e.metadata_emit_messages).getD true) st.stream.runId st := by
    simp [handleChatModelStream, hdc, htools, hfin, strTruthy, hm]
  have hguard : (!(strTruthy (idOf (some m))) || strTruthy (toolCallIdOf (some m))) = true := by
    simp [toolCallIdOf, htc, strTruthy, hts]
  have hmb : messageBranch chunk (some m) (strTruthy (idOf (some m)))
      ((e.metadata_emit_messages).getD true) st.stream.runId st =
      (ProcState.mk
        (setMessageInProgress st.stream.runId
          (MessageInProgress.mk (orFresh chunk.id st).1 none none)
          (orFresh chunk.id st).2.stream)
        (orFresh chunk.id st).2.fresh,
       [RuntimeEvent.textMessageStart (orFresh chunk.id st).1,
        RuntimeEvent.textMessageContent (orFresh chunk.id st).1 s]) := by
    have hne : strTruthy (some s) = true := by simp [strTruthy, hsne]
    have htcid : strTruthy (toolCallIdOf (some m)) = true := by
      simp [toolCallIdOf, htc, strTruthy, hts]
    have hfreshne : strTruthy (some (orFresh chunk.id st).1) = true := by
      simp [strTruthy, orFresh_fst_ne_empty chunk.id st]
    simp [messageBranch, hs, hne, hsem, htcid, hcs2, idOf, hfreshne]
  refine ⟨?_, ?_, ?_⟩
  · rw [hstep, hmb]
  · rw [hstep, hmb]
    exact hcs2
  · intro aeid
    rw [hstep, hmb]
    simp

/-- C10 witness: the theorem applied to a token delta with text content
arriving while the fixture state's tool-call unit is open. -/
theorem claim_c10_witness :
    (handleChatModelStream (tokenDelta (MessageContent.strC "hello")) tcOpenState).2 =
      [RuntimeEvent.textMessageStart (uuid 0),
       RuntimeEvent.textMessageContent (uuid 0) "hello"] :=
  (claim_c10_implicit_supersede (tokenDelta (MessageContent.strC "hello")) tcOpenState
    { id := none, content := MessageContent.strC "hello", tool_calls := [],
      finish_reason := none }
    { id := "m1", toolCallId := some "call_9", toolCallName := some "search" }
    "call_9" "hello" rfl rfl rfl rfl rfl (by decide) rfl (by decide) rfl
    (by decide)).1
